import Mathlib

/-!
Verification development for the spansy crate: a span-based parser for
HTTP/1.1 messages and JSON documents.

Modelling conventions (shallow embedding of the Rust source under src/):

* Byte buffers (the `bytes::Bytes` source buffer) are `List Nat`, one entry
  per byte.
* The `utils::range::RangeSet<usize>` index set of a span is modelled as the
  sorted list of its member indices (`List Nat`); a `RangeSet` is a canonical
  sorted set of disjoint ranges, so this representation is faithful for
  equality, `len`, membership and `difference`.
* A `Span<T>` (src/lib.rs) stores the sliced-out data bytes (`data`) and the
  index set (`indices`); the `PhantomData` kind parameter carries no data and
  is dropped.  The derived `PartialEq` on `Span` compares `data` (by content,
  as `Bytes` does) and `indices`, which is exactly structural equality of the
  Lean structure.
* Rust `Result<T, ParseError>` is `Except ParseError T` with
  `ParseError := String` (the error's message).  Calls that can only panic
  (`expect` on invariants) are modelled as distinctive error values; they are
  unreachable on the inputs the theorems use.
* `str` values are their UTF-8 bytes; `eq_ignore_ascii_case`, `split('.')`
  and `usize::from_str` are modelled byte-wise, which agrees with Rust on
  ASCII data.
* The `httparse` head tokenizer is an external dependency; the spec describes
  it as an already-correct leaf component that locates the request/status
  line tokens, each header's raw name/value ranges and the offset where the
  body begins.  `tokenizeRequest` / `tokenizeResponse` below model it from
  that description.  Everything downstream of the tokenizer follows
  src/http/span.rs line by line.
-/

/-- Bytes of an ASCII string literal (each char is one byte for ASCII). -/
def strBytes (s : String) : List Nat := s.data.map Char.toNat

/-- Contiguous index range a..b (half-open), as the sorted list of indices. -/
def rangeIdx (a b : Nat) : List Nat := List.range' a (b - a)

/-- Slice src[a..b] of a byte buffer (Rust `src.slice(a..b)` / `&src[a..b]`). -/
def listSlice (src : List Nat) (a b : Nat) : List Nat := (src.drop a).take (b - a)

/-- Bytes of the buffer at the given indices, in order (the semantics of
slicing a source at a span's index set, `utils::range::IndexRanges`). -/
def extractIdx (src : List Nat) (idx : List Nat) : List Nat :=
  idx.filterMap (fun i => src[i]?)

/-- Whether `pat` is a prefix of `l`. -/
def bytesStartWith : List Nat → List Nat → Bool
  | _, [] => true
  | [], _ :: _ => false
  | a :: as, b :: bs => a == b && bytesStartWith as bs

/-- First index at which `pat` occurs as a contiguous subsequence of `l`
(Rust `slice::windows(n).position(..)`). -/
def findSubseq : List Nat → List Nat → Option Nat
  | l, pat =>
    match l with
    | [] => if pat.isEmpty then some 0 else none
    | _ :: t => if bytesStartWith l pat then some 0 else (findSubseq t pat).map (· + 1)

/-- First index of a length-3 window of `l` equal to `pat`
(Rust `windows(3).find(|w| *w == pat)`; no window matches when `pat` has a
different length, and a list shorter than 3 has no windows). -/
def findWindow3 : List Nat → List Nat → Option Nat
  | a :: b :: c :: t, pat =>
    if [a, b, c] = pat then some 0 else (findWindow3 (b :: c :: t) pat).map (· + 1)
  | _, _ => none

/-- ASCII lower-casing of one byte (Rust `u8::to_ascii_lowercase`). -/
def toLowerByte (c : Nat) : Nat := if 65 ≤ c ∧ c ≤ 90 then c + 32 else c

/-- Rust `str::eq_ignore_ascii_case`, byte-wise. -/
def eqIgnoreAsciiCase (a b : List Nat) : Bool :=
  a.map toLowerByte == b.map toLowerByte

/-- Whether a byte is an ASCII digit. -/
def isDigitByte (c : Nat) : Bool := 48 ≤ c && c ≤ 57

/-- Rust `str::parse::<usize>()` on UTF-8 bytes: optional leading '+', then
one or more ASCII digits, value below 2^64 (64-bit usize).  `none` models
both the Utf8Error and the ParseIntError path of the source, which each map
into `ParseError`. -/
def parseUsizeBytes (l : List Nat) : Option Nat :=
  let d := match l with
    | 43 :: t => t
    | _ => l
  if d.isEmpty then none
  else if d.all isDigitByte then
    let v := d.foldl (fun a c => a * 10 + (c - 48)) 0
    if v < 2 ^ 64 then some v else none
  else none

/-- Decimal digit bytes, most significant first, by fueled division; the
fuel `n + 1` always suffices since the argument shrinks at every step. -/
def natDigsAux : Nat → Nat → List Nat
  | 0, _ => []
  | fuel + 1, n => if n < 10 then [48 + n] else natDigsAux fuel (n / 10) ++ [48 + n % 10]

/-- Decimal digit bytes of a natural number (Rust `n.to_string()`). -/
def natDigs (n : Nat) : List Nat := natDigsAux (n + 1) n

/-- Parsing error (src/lib.rs `ParseError`): the error's message string. -/
abbrev ParseError := String

/-- Span model (src/lib.rs `Span<T>`): the sliced source data plus the index
set within the original buffer.  The kind parameter (`[u8]` vs `str`) is
`PhantomData` and carries no data.  Lean's structure equality coincides with
the derived `PartialEq`, which compares `data` (content-wise) and `indices`. -/
structure Span where
  data : List Nat
  indices : List Nat
  deriving Repr, DecidableEq

/-- Span constructor from a contiguous range (src/lib.rs `Span::new_bytes`
and `Span::new_str`): data is the slice, indices the range.  The source
asserts `range ⊆ src` (resp. UTF-8 validity) and panics otherwise; panics
are contract violations outside the `Result` error channel, so the model
leaves them implicit. -/
def Span.mk_range (src : List Nat) (a b : Nat) : Span :=
  { data := listSlice src a b, indices := rangeIdx a b }

/-- Length of a span in bytes (src/lib.rs `Span::len`, the index-set count). -/
def Span.len (s : Span) : Nat := s.indices.length

/-- RangeSet difference (`utils::range::RangeDifference`): indices of `a`
that are not indices of `b`, order preserved. -/
def idxDifference (a b : List Nat) : List Nat :=
  a.filter (fun x => !(b.contains x))

/-! HTTP entity types, following src/http/types.rs.  Each is a thin wrapper
around one or more spans. -/

/-- HTTP header name (src/http/types.rs `HeaderName`, a `Span<str>`). -/
structure HeaderName where
  s : Span
  deriving Repr, DecidableEq

/-- HTTP header value (src/http/types.rs `HeaderValue`, a byte span). -/
structure HeaderValue where
  s : Span
  deriving Repr, DecidableEq

/-- HTTP header (src/http/types.rs `Header`): its own span covers the whole
header line including optional whitespace and the trailing CRLF. -/
structure Header where
  span : Span
  name : HeaderName
  value : HeaderValue
  deriving Repr, DecidableEq

/-- HTTP request line (src/http/types.rs `RequestLine`). -/
structure RequestLine where
  span : Span
  method : Span
  target : Span
  deriving Repr, DecidableEq

/-- HTTP body (src/http/types.rs `Body`). -/
structure Body where
  span : Span
  deriving Repr, DecidableEq

/-- HTTP request (src/http/types.rs `Request`). -/
structure Request where
  span : Span
  request : RequestLine
  headers : List Header
  body : Option Body
  deriving Repr, DecidableEq

/-- HTTP response status (src/http/types.rs `Status`). -/
structure Status where
  span : Span
  code : Span
  reason : Span
  deriving Repr, DecidableEq

/-- HTTP response (src/http/types.rs `Response`). -/
structure Response where
  span : Span
  status : Status
  headers : List Header
  body : Option Body
  deriving Repr, DecidableEq

/-- Request header lookup (src/http/types.rs `Request::headers_with_name`):
all headers whose name equals `name` ASCII-case-insensitively, in document
order. -/
def Request.headersWithName (r : Request) (name : List Nat) : List Header :=
  r.headers.filter (fun h => eqIgnoreAsciiCase h.name.s.data name)

/-- Response header lookup (src/http/types.rs `Response::headers_with_name`). -/
def Response.headersWithName (r : Response) (name : List Nat) : List Header :=
  r.headers.filter (fun h => eqIgnoreAsciiCase h.name.s.data name)

/-! Head tokenizer.  Modelled from the spec: the HTTP Head Tokenizer is an
external, already-correct leaf component (the `httparse` crate, not code of
this repository) that locates method/target/version or code/reason and each
header's raw name/value byte ranges and the offset where the body begins
(spec sections 2 and 4.2 step 1). -/

/-- Whether a byte may appear in an HTTP token (header name, method). -/
def tokenByte (c : Nat) : Bool := 33 ≤ c && c ≤ 126 && !(c == 58)

/-- Name/value byte ranges of one tokenized header, absolute within the
source buffer. -/
structure HeaderTok where
  nameStart : Nat
  nameEnd : Nat
  valStart : Nat
  valEnd : Nat
  deriving Repr, DecidableEq

/-- Tokenize one raw header line starting at absolute position `abs`:
`name ':' OWS value OWS`, the value trimmed of leading and trailing
whitespace as httparse reports it. -/
def tokHeaderLine (abs : Nat) (line : List Nat) : Option HeaderTok :=
  let name := line.takeWhile (fun c => !(c == 58))
  if name.isEmpty || name.length == line.length || !(name.all tokenByte) then none
  else
    let rest := line.drop (name.length + 1)
    let lead := (rest.takeWhile (fun c => c == 32 || c == 9)).length
    let v := rest.drop lead
    let trail := (v.reverse.takeWhile (fun c => c == 32 || c == 9)).length
    some { nameStart := abs, nameEnd := abs + name.length,
           valStart := abs + name.length + 1 + lead,
           valEnd := abs + name.length + 1 + lead + (v.length - trail) }

/-- Tokenize the raw header region (a sequence of lines each terminated by
CRLF), `abs` the absolute position of the region's start. -/
def tokHeaders (fuel : Nat) (abs : Nat) (region : List Nat) : Option (List HeaderTok) :=
  match fuel with
  | 0 => none
  | fuel + 1 =>
    match region with
    | [] => some []
    | _ =>
      match findSubseq region [13, 10] with
      | none => none
      | some j =>
        let line := region.take j
        if line.contains 13 || line.contains 10 then none
        else
          match tokHeaderLine abs line with
          | none => none
          | some h =>
            (tokHeaders fuel (abs + j + 2) (region.drop (j + 2))).map (fun hs => h :: hs)

/-- Result of tokenizing a request head at `offset`: all positions except
the header ranges are relative to `offset`. -/
structure ReqTok where
  lineEnd : Nat
  headEnd : Nat
  methodLen : Nat
  targetStart : Nat
  targetLen : Nat
  headers : List HeaderTok
  deriving Repr, DecidableEq

/-- Maximum number of headers accepted by the parser (src/http/span.rs
`MAX_HEADERS`). -/
def MAX_HEADERS : Nat := 128

/-- Tokenize a request head: request line `method SP target SP version CRLF`,
then headers, terminated by an empty line; `none` models both an incomplete
head (httparse `Status::Partial`) and a tokenizer error. -/
def tokenizeRequest (src : List Nat) (offset : Nat) : Option ReqTok :=
  let rel := src.drop offset
  match findSubseq rel [13, 10, 13, 10] with
  | none => none
  | some i =>
    match findSubseq rel [13, 10] with
    | none => none
    | some j =>
      let line := rel.take j
      let m := line.takeWhile (fun c => !(c == 32))
      match line.drop m.length with
      | 32 :: rest2 =>
        let t := rest2.takeWhile (fun c => !(c == 32))
        match rest2.drop t.length with
        | 32 :: ver =>
          if (ver = strBytes "HTTP/1.1" ∨ ver = strBytes "HTTP/1.0")
              ∧ !m.isEmpty ∧ m.all tokenByte ∧ !t.isEmpty then
            let region := (rel.take (i + 2)).drop (j + 2)
            match tokHeaders (region.length + 1) (offset + j + 2) region with
            | none => none
            | some hs =>
              if hs.length ≤ MAX_HEADERS then
                some { lineEnd := j, headEnd := i + 4, methodLen := m.length,
                       targetStart := m.length + 1, targetLen := t.length, headers := hs }
              else none
          else none
        | _ => none
      | _ => none

/-- Result of tokenizing a response head at `offset`. -/
structure RespTok where
  lineEnd : Nat
  headEnd : Nat
  codeVal : Nat
  reasonStart : Nat
  reasonLen : Nat
  headers : List HeaderTok
  deriving Repr, DecidableEq

/-- Tokenize a response head: status line
`version SP 3digit-code (SP reason)? CRLF`, then headers. -/
def tokenizeResponse (src : List Nat) (offset : Nat) : Option RespTok :=
  let rel := src.drop offset
  match findSubseq rel [13, 10, 13, 10] with
  | none => none
  | some i =>
    match findSubseq rel [13, 10] with
    | none => none
    | some j =>
      let line := rel.take j
      let ver := line.takeWhile (fun c => !(c == 32))
      if ver = strBytes "HTTP/1.1" ∨ ver = strBytes "HTTP/1.0" then
        match line.drop ver.length with
        | 32 :: d1 :: d2 :: d3 :: rest =>
          if isDigitByte d1 && isDigitByte d2 && isDigitByte d3 then
            let code := (d1 - 48) * 100 + (d2 - 48) * 10 + (d3 - 48)
            let reason : Option (Nat × Nat) :=
              match rest with
              | [] => some (ver.length + 4, 0)
              | 32 :: r => some (ver.length + 5, r.length)
              | _ => none
            match reason with
            | none => none
            | some (rs, rl) =>
              let region := (rel.take (i + 2)).drop (j + 2)
              match tokHeaders (region.length + 1) (offset + j + 2) region with
              | none => none
              | some hs =>
                if hs.length ≤ MAX_HEADERS then
                  some { lineEnd := j, headEnd := i + 4, codeVal := code,
                         reasonStart := rs, reasonLen := rl, headers := hs }
                else none
          else none
        | _ => none
      else none

/-- Convert a tokenized header to a `Header` (src/http/span.rs
`from_header`): the header's own span extends from the name's start past the
value's end, over any trailing whitespace, through the terminating CRLF. -/
def fromHeader (src : List Nat) (h : HeaderTok) : Header :=
  let crlfIdx := (findSubseq (src.drop h.valEnd) [13, 10]).getD 0
  { span := Span.mk_range src h.nameStart (h.valEnd + crlfIdx + 2),
    name := { s := Span.mk_range src h.nameStart h.nameEnd },
    value := { s := Span.mk_range src h.valStart h.valEnd } }

/-- Body length of a request per RFC 9112 section 6 (src/http/span.rs
`request_body_len`): any Transfer-Encoding header is a fatal error, else a
Content-Length header's decimal value, else zero. -/
def request_body_len (r : Request) : Except ParseError Nat :=
  if !(r.headersWithName (strBytes "Transfer-Encoding")).isEmpty then
    .error "Transfer-Encoding not supported yet"
  else
    match r.headersWithName (strBytes "Content-Length") with
    | h :: _ =>
      match parseUsizeBytes h.value.s.data with
      | some n => .ok n
      | none => .error "failed to parse Content-Length value"
    | [] => .ok 0

/-- Body length of a response per RFC 9112 section 6 (src/http/span.rs
`response_body_len`): 1xx, 204 and 304 are always bodyless (checked first),
then Transfer-Encoding is a fatal error, then Content-Length's value, else a
fatal error since there is no connection context. -/
def response_body_len (r : Response) : Except ParseError Nat :=
  match parseUsizeBytes r.status.code.data with
  | none => .error "code is valid utf-8"
  | some c =>
    if (100 ≤ c ∧ c ≤ 199) ∨ c = 204 ∨ c = 304 then .ok 0
    else if !(r.headersWithName (strBytes "Transfer-Encoding")).isEmpty then
      .error "Transfer-Encoding not supported yet"
    else
      match r.headersWithName (strBytes "Content-Length") with
      | h :: _ =>
        match parseUsizeBytes h.value.s.data with
        | some n => .ok n
        | none => .error "failed to parse Content-Length value"
      | [] =>
        .error "A response with a body must contain either a Content-Length or Transfer-Encoding header"

/-- Parse an HTTP request from a buffer starting at `offset`
(src/http/span.rs `parse_request_from_bytes`). -/
def parse_request_from_bytes (src : List Nat) (offset : Nat) : Except ParseError Request :=
  match tokenizeRequest src offset with
  | none => .error "incomplete request"
  | some tok =>
    let head_end := offset + tok.headEnd
    match findSubseq (src.drop offset) [13, 10] with
    | none => .error "request line is terminated with CRLF"
    | some rle =>
      let request_line_range := (offset, offset + rle + 2)
      let headers := tok.headers.map (fromHeader src)
      let methodBytes := listSlice src offset (offset + tok.methodLen)
      match findSubseq (src.drop offset) methodBytes with
      | none => .error "method is present"
      | some mpos =>
        let req : Request :=
          { span := Span.mk_range src offset head_end,
            request :=
              { span := Span.mk_range src request_line_range.1 request_line_range.2,
                method := Span.mk_range src (offset + mpos) (offset + mpos + tok.methodLen),
                target := Span.mk_range src (offset + tok.targetStart)
                  (offset + tok.targetStart + tok.targetLen) },
            headers := headers,
            body := none }
        match request_body_len req with
        | .error e => .error e
        | .ok body_len =>
          if body_len > 0 then
            if head_end + body_len > src.length then
              .error "body range exceeds source"
            else
              .ok { req with
                    span := Span.mk_range src offset (head_end + body_len),
                    body := some { span := Span.mk_range src head_end (head_end + body_len) } }
          else .ok req

/-- Parse an HTTP response from a buffer starting at `offset`
(src/http/span.rs `parse_response_from_bytes`). -/
def parse_response_from_bytes (src : List Nat) (offset : Nat) : Except ParseError Response :=
  match tokenizeResponse src offset with
  | none => .error "incomplete response"
  | some tok =>
    let head_end := offset + tok.headEnd
    match findSubseq (src.drop offset) [13, 10] with
    | none => .error "status line is terminated with CRLF"
    | some sle =>
      let status_line_range := (offset, offset + sle + 2)
      let headers := tok.headers.map (fromHeader src)
      match findWindow3 (src.drop offset) (natDigs tok.codeVal) with
      | none => .error "code is present"
      | some cpos =>
        let resp : Response :=
          { span := Span.mk_range src offset head_end,
            status :=
              { span := Span.mk_range src status_line_range.1 status_line_range.2,
                code := Span.mk_range src (offset + cpos) (offset + cpos + 3),
                reason := Span.mk_range src (offset + tok.reasonStart)
                  (offset + tok.reasonStart + tok.reasonLen) },
            headers := headers,
            body := none }
        match response_body_len resp with
        | .error e => .error e
        | .ok body_len =>
          if body_len > 0 then
            if head_end + body_len > src.length then
              .error "body range exceeds source"
            else
              .ok { resp with
                    span := Span.mk_range src offset (head_end + body_len),
                    body := some { span := Span.mk_range src head_end (head_end + body_len) } }
          else .ok resp

/-! Streaming iterators over one buffer (src/http/mod.rs `Requests` and
`Responses`): state is the current position `pos`; `next` returns the
yielded item (or `none` at the end) together with the new position. -/

/-- One step of the `Requests` iterator (src/http/mod.rs `Requests::next`):
`none` at or past the end of the buffer, else parse at `pos`, advancing by
the parsed request's span length only on success. -/
def requestsNext (src : List Nat) (pos : Nat) :
    Option (Except ParseError Request) × Nat :=
  if pos ≥ src.length then (none, pos)
  else
    match parse_request_from_bytes src pos with
    | .ok req => (some (.ok req), pos + req.span.len)
    | .error e => (some (.error e), pos)

/-- One step of the `Responses` iterator (src/http/mod.rs `Responses::next`). -/
def responsesNext (src : List Nat) (pos : Nat) :
    Option (Except ParseError Response) × Nat :=
  if pos ≥ src.length then (none, pos)
  else
    match parse_response_from_bytes src pos with
    | .ok resp => (some (.ok resp), pos + resp.span.len)
    | .error e => (some (.error e), pos)

/-- Collect the items the `Requests` iterator yields, up to `fuel` steps. -/
def requestsList (src : List Nat) (pos : Nat) : Nat → List (Except ParseError Request)
  | 0 => []
  | fuel + 1 =>
    match requestsNext src pos with
    | (none, _) => []
    | (some r, p) => r :: requestsList src p fuel

/-- Collect the items the `Responses` iterator yields, up to `fuel` steps. -/
def responsesList (src : List Nat) (pos : Nat) : Nat → List (Except ParseError Response)
  | 0 => []
  | fuel + 1 =>
    match responsesNext src pos with
    | (none, _) => []
    | (some r, p) => r :: responsesList src p fuel

/-- Output and state of the `Requests` iterator after `k` calls to `next`
(the pair returned by the last call; `k = 0` returns a placeholder). -/
def requestsNextN (src : List Nat) (pos : Nat) :
    Nat → Option (Except ParseError Request) × Nat
  | 0 => (none, pos)
  | 1 => requestsNext src pos
  | k + 2 => requestsNextN src (requestsNext src pos).2 (k + 1)

/-- Output and state of the `Responses` iterator after `k` calls to `next`. -/
def responsesNextN (src : List Nat) (pos : Nat) :
    Nat → Option (Except ParseError Response) × Nat
  | 0 => (none, pos)
  | 1 => responsesNext src pos
  | k + 2 => responsesNextN src (responsesNext src pos).2 (k + 1)

/-! JSON span parser, range level (src/json/span.rs `JsonSpanner`).  The
spanner walks the input and records half-open byte ranges `(start, end)` for
every node.  The low-level reader (src/json/read.rs `SliceRead`, not under
src/) contributes `ignore_str`, modelled from the spec's string grammar
below.  Recursion is fuel-indexed; the entry point supplies fuel that the
inputs of the theorems never exhaust. -/

/-- Error codes of the JSON parser (src/json/error.rs, not under src/; the
constructors are the ones src/json/span.rs raises).  `Fuel` is a marker of
the model for fuel exhaustion; positioned (line, column) data lives in the
missing error module and is not modelled. -/
inductive JsonErr where
  | EofWhileParsingValue
  | EofWhileParsingObject
  | EofWhileParsingList
  | EofWhileParsingString
  | ExpectedColon
  | ExpectedSomeIdent
  | ExpectedSomeValue
  | InvalidNumber
  | KeyMustBeAString
  | TrailingCharacters
  | Fuel
  deriving Repr, DecidableEq

/-- JSON value of the range-level parser (src/json/span.rs revision of the
types: each node holds its half-open byte range; objects hold key-range /
value pairs). -/
inductive RJsonValue where
  | null (r : Nat × Nat)
  | bool (r : Nat × Nat)
  | num (r : Nat × Nat)
  | str (r : Nat × Nat)
  | arr (r : Nat × Nat) (elems : List RJsonValue)
  | obj (r : Nat × Nat) (elems : List ((Nat × Nat) × RJsonValue))

/-- Whether a byte is JSON whitespace (src/json/span.rs `parse_whitespace`). -/
def isJsonWs (c : Nat) : Bool := c == 32 || c == 10 || c == 9 || c == 13

/-- Position of the first non-whitespace byte at or after `pos`
(`parse_whitespace` without the peek). -/
def skipWs (src : List Nat) (pos : Nat) : Nat :=
  pos + ((src.drop pos).takeWhile isJsonWs).length

/-- Modelled from the spec: `SliceRead::ignore_str` of the missing
src/json/read.rs, per the grammar `string := '"' (escape|any-non-quote)* '"'`
— scan from just after the opening quote, a backslash escaping the next
byte, and consume the closing quote, returning the offset just past it. -/
def ignoreStr (src : List Nat) : Nat → Nat → Except JsonErr Nat
  | 0, _ => .error .Fuel
  | fuel + 1, pos =>
    match src.get? pos with
    | none => .error .EofWhileParsingString
    | some 34 => .ok (pos + 1)
    | some 92 =>
      match src.get? (pos + 1) with
      | none => .error .EofWhileParsingString
      | some _ => ignoreStr src fuel (pos + 2)
    | some _ => ignoreStr src fuel (pos + 1)

/-- src/json/span.rs `parse_ident`: consume the expected literal bytes. -/
def parseIdent (src : List Nat) : Nat → List Nat → Except JsonErr Nat
  | pos, [] => .ok pos
  | pos, c :: t =>
    match src.get? pos with
    | none => .error .EofWhileParsingValue
    | some b => if b = c then parseIdent src (pos + 1) t else .error .ExpectedSomeIdent

/-- Count of consecutive ASCII digits at `pos`. -/
def countDigits (src : List Nat) (pos : Nat) : Nat :=
  ((src.drop pos).takeWhile isDigitByte).length

/-- src/json/span.rs `parse_exponent`: after the `e`/`E` at `pos`, an
optional sign, then at least one digit. -/
def parseExponent (src : List Nat) (start pos : Nat) : Except JsonErr (RJsonValue × Nat) :=
  let p1 := pos + 1
  let p2 := match src.get? p1 with
    | some 43 => p1 + 1
    | some 45 => p1 + 1
    | _ => p1
  match src.get? p2 with
  | some c =>
    if isDigitByte c then
      let e := p2 + 1 + countDigits src (p2 + 1)
      .ok (.num (start, e), e)
    else .error .InvalidNumber
  | none => .error .InvalidNumber

/-- src/json/span.rs `parse_decimal`: after the `.` at `pos`, at least one
digit, then an optional exponent. -/
def parseDecimal (src : List Nat) (start pos : Nat) : Except JsonErr (RJsonValue × Nat) :=
  let k := countDigits src (pos + 1)
  if k = 0 then .error .InvalidNumber
  else
    let p2 := pos + 1 + k
    match src.get? p2 with
    | some 101 => parseExponent src start p2
    | some 69 => parseExponent src start p2
    | _ => .ok (.num (start, p2), p2)

/-- src/json/span.rs `parse_integer`: a single leading `0`, or a nonzero
digit followed by digits, then an optional decimal part or exponent. -/
def parseInteger (src : List Nat) (start pos : Nat) : Except JsonErr (RJsonValue × Nat) :=
  let step : Except JsonErr Nat :=
    match (src.get? pos).getD 0 with
    | 48 =>
      if isDigitByte ((src.get? (pos + 1)).getD 0) then .error .InvalidNumber
      else .ok (pos + 1)
    | c =>
      if 49 ≤ c ∧ c ≤ 57 then .ok (pos + 1 + countDigits src (pos + 1))
      else .error .InvalidNumber
  match step with
  | .error e => .error e
  | .ok p =>
    match (src.get? p).getD 0 with
    | 46 => parseDecimal src start p
    | 101 => parseExponent src start p
    | 69 => parseExponent src start p
    | _ => .ok (.num (start, p), p)

/-- src/json/span.rs `parse_key`: whitespace, an opening quote, then the
string scan; the recorded key range runs from `start` through the offset
just past the closing quote. -/
def parseKeyR (src : List Nat) (fuel start : Nat) : Except JsonErr ((Nat × Nat) × Nat) :=
  let p := skipWs src start
  match src.get? p with
  | some 34 =>
    match ignoreStr src fuel (p + 1) with
    | .error e => .error e
    | .ok e => .ok ((start, e), e)
  | some _ => .error .KeyMustBeAString
  | none => .error .EofWhileParsingValue

/-- src/json/span.rs `parse_object_colon`. -/
def parseObjectColon (src : List Nat) (pos : Nat) : Except JsonErr Nat :=
  let p := skipWs src pos
  match src.get? p with
  | some 58 => .ok (p + 1)
  | some _ => .error .ExpectedColon
  | none => .error .EofWhileParsingObject

/-- Call frames of the recursive spanner: one constructor per recursive
function of src/json/span.rs (`parse_value`, the `parse_object` loop,
`parse_kv`, the `parse_array` loop).  The recursion is written as a single
fuel-indexed function over these frames so that it is a plain structural
recursion (the kernel evaluates it); each frame's branch below follows the
corresponding source function line by line. -/
inductive RFrame where
  | value (start pos : Nat)
  | objLoop (start pos : Nat) (elems : List ((Nat × Nat) × RJsonValue))
  | kv (start : Nat)
  | arrLoop (start pos : Nat) (elems : List RJsonValue)

/-- Result of one frame: a value (for `parse_value` and the loops) or a
key/value pair (for `parse_kv`). -/
inductive RRes where
  | val (v : RJsonValue)
  | kvp (kv : (Nat × Nat) × RJsonValue)

/-- The recursive spanner of src/json/span.rs over call frames, paired with
the offset reached.  The `.error .Fuel` lines for an ill-typed frame result
are unreachable: a `.kv` frame always returns `.kvp` and the others `.val`. -/
def jsonRun (src : List Nat) : Nat → RFrame → Except JsonErr (RRes × Nat)
  | 0, _ => .error .Fuel
  | fuel + 1, .value start pos =>
    -- parse_value: dispatch on the first non-whitespace byte; every range
    -- starts at the caller-supplied start.
    let p := skipWs src pos
    match src[p]? with
    | none => .error .EofWhileParsingValue
    | some 110 =>
      match parseIdent src (p + 1) (strBytes "ull") with
      | .error e => .error e
      | .ok e => .ok (.val (.null (start, e)), e)
    | some 116 =>
      match parseIdent src (p + 1) (strBytes "rue") with
      | .error e => .error e
      | .ok e => .ok (.val (.bool (start, e)), e)
    | some 102 =>
      match parseIdent src (p + 1) (strBytes "alse") with
      | .error e => .error e
      | .ok e => .ok (.val (.bool (start, e)), e)
    | some 45 =>
      match parseInteger src start (p + 1) with
      | .error e => .error e
      | .ok (v, e) => .ok (.val v, e)
    | some 34 =>
      match ignoreStr src fuel (p + 1) with
      | .error e => .error e
      | .ok e => .ok (.val (.str (start, e)), e)
    | some 91 => jsonRun src fuel (.arrLoop start (p + 1) [])
    | some 123 => jsonRun src fuel (.objLoop start (p + 1) [])
    | some c =>
      if isDigitByte c then
        match parseInteger src start p with
        | .error e => .error e
        | .ok (v, e) => .ok (.val v, e)
      else .error .ExpectedSomeValue
  | fuel + 1, .objLoop start pos elems =>
    -- parse_object: a closing brace finishes the object, a comma is simply
    -- consumed, anything else is parsed as a key/value pair starting at the
    -- current offset.
    let p := skipWs src pos
    match src[p]? with
    | some 125 => .ok (.val (.obj (start, p + 1) elems), p + 1)
    | some 44 => jsonRun src fuel (.objLoop start (p + 1) elems)
    | some _ =>
      match jsonRun src fuel (.kv p) with
      | .error e => .error e
      | .ok (.kvp kv, p2) => jsonRun src fuel (.objLoop start p2 (elems ++ [kv]))
      | .ok (.val _, _) => .error .Fuel
    | none => .error .EofWhileParsingObject
  | fuel + 1, .kv start =>
    -- parse_kv: key, colon, then the value starting just after the colon.
    match parseKeyR src fuel start with
    | .error e => .error e
    | .ok (key, p1) =>
      match parseObjectColon src p1 with
      | .error e => .error e
      | .ok p2 =>
        match jsonRun src fuel (.value p2 p2) with
        | .error e => .error e
        | .ok (.val v, p3) => .ok (.kvp (key, v), p3)
        | .ok (.kvp _, _) => .error .Fuel
  | fuel + 1, .arrLoop start pos elems =>
    -- parse_array: a closing bracket finishes the array, a comma is simply
    -- consumed, anything else is parsed as a value starting at the current
    -- offset.
    let p := skipWs src pos
    match src[p]? with
    | some 93 => .ok (.val (.arr (start, p + 1) elems), p + 1)
    | some 44 => jsonRun src fuel (.arrLoop start (p + 1) elems)
    | some _ =>
      match jsonRun src fuel (.value p p) with
      | .error e => .error e
      | .ok (.val v, p2) => jsonRun src fuel (.arrLoop start p2 (elems ++ [v]))
      | .ok (.kvp _, _) => .error .Fuel
    | none => .error .EofWhileParsingList

/-- src/json/span.rs `parse_value` as a frame call. -/
def parseValueR (src : List Nat) (fuel start pos : Nat) : Except JsonErr (RRes × Nat) :=
  jsonRun src fuel (.value start pos)

/-- src/json/span.rs `JsonSpanner::parse`: parse one value from offset 0.
The supplied fuel exceeds what any input can consume. -/
def jsonParse (src : List Nat) : Except JsonErr RJsonValue :=
  match parseValueR src (2 * src.length + 8) 0 0 with
  | .error e => .error e
  | .ok (.val v, _) => .ok v
  | .ok (.kvp _, _) => .error .Fuel

/-! JSON value types at the span level (src/json/types.rs): every node holds
a `Span` into the source; string and key spans exclude the surrounding
quotes (their content is the comparison key for path lookup).  `JsonKey` is
a newtype of `Span<str>` and is modelled as `Span` directly. -/

mutual

/-- src/json/types.rs `JsonValue`: tagged union over the six node kinds. -/
inductive JsonValue where
  | null (s : Span)
  | bool (s : Span)
  | num (s : Span)
  | str (s : Span)
  | arr (a : JArray)
  | obj (o : JObject)

/-- src/json/types.rs `Array`: container span plus element values. -/
inductive JArray where
  | mk (span : Span) (elems : List JsonValue)

/-- src/json/types.rs `Object`: container span plus key/value pairs. -/
inductive JObject where
  | mk (span : Span) (elems : List JKeyValue)

/-- src/json/types.rs `KeyValue`: pair span (key through value), the key's
span and the value. -/
inductive JKeyValue where
  | mk (span : Span) (key : Span) (value : JsonValue)

end

/-- Span of an array (src/json/types.rs `Array`'s `span` field). -/
def JArray.span : JArray → Span
  | .mk s _ => s

/-- Elements of an array. -/
def JArray.elems : JArray → List JsonValue
  | .mk _ es => es

/-- Span of an object. -/
def JObject.span : JObject → Span
  | .mk s _ => s

/-- Key/value pairs of an object. -/
def JObject.elems : JObject → List JKeyValue
  | .mk _ es => es

/-- Span of a key/value pair. -/
def JKeyValue.span : JKeyValue → Span
  | .mk s _ _ => s

/-- Key span of a key/value pair. -/
def JKeyValue.key : JKeyValue → Span
  | .mk _ k _ => k

/-- Value of a key/value pair. -/
def JKeyValue.value : JKeyValue → JsonValue
  | .mk _ _ v => v

/-- Span of a JSON value (src/json/types.rs `Spanned` impl for `JsonValue`). -/
def JsonValue.span : JsonValue → Span
  | .null s => s
  | .bool s => s
  | .num s => s
  | .str s => s
  | .arr a => a.span
  | .obj o => o.span

/-- Dotted-path lookup, fuel-indexed (src/json/types.rs `JsonValue::get`,
`Object::get` and `Array::get`, inlined per node kind): the first path
segment is the bytes before the first `.` (46); an object looks up the first
pair whose key content equals the segment, an array parses the segment as a
usize index; when the path holds a further segment the lookup recurses on
the path after the first dot.  Leaves never match.  Each recursive call
shortens the path, so fuel `path.length + 1` never runs out. -/
def jsonGetF : Nat → JsonValue → List Nat → Option JsonValue
  | 0, _, _ => none
  | fuel + 1, v, path =>
    match v with
    | .null _ => none
    | .bool _ => none
    | .num _ => none
    | .str _ => none
    | .arr a =>
      let key := path.takeWhile (fun c => !(c == 46))
      match parseUsizeBytes key with
      | none => none
      | some idx =>
        match a.elems.get? idx with
        | none => none
        | some value =>
          if path.contains 46 then jsonGetF fuel value (path.drop (key.length + 1))
          else some value
    | .obj o =>
      let key := path.takeWhile (fun c => !(c == 46))
      match o.elems.find? (fun kv => kv.key.data == key) with
      | none => none
      | some kv =>
        if path.contains 46 then jsonGetF fuel kv.value (path.drop (key.length + 1))
        else some kv.value

/-- src/json/types.rs `JsonValue::get` (with `Object::get` / `Array::get`
doing the per-kind work): the fuel wrapper's entry point. -/
def JsonValue.get (v : JsonValue) (path : List Nat) : Option JsonValue :=
  jsonGetF (path.length + 1) v path

/-- Path split at dots, accumulator form (Rust `str::split('.')` on bytes). -/
def splitDotAux : List Nat → List Nat → List (List Nat)
  | acc, [] => [acc.reverse]
  | acc, c :: t => if c == 46 then acc.reverse :: splitDotAux [] t else splitDotAux (c :: acc) t

/-- Segments of a dotted path (Rust `path.split('.')` collected). -/
def splitDot (l : List Nat) : List (List Nat) := splitDotAux [] l

/-- Specification-side path lookup over the split segment list, written
from the claim: each successive segment must match the current node — an
object key by string equality, or an array index parsed as an unsigned
integer that is in bounds — and the traversal fails the first time a
segment does not match, with no partial result. -/
def specGet : JsonValue → List (List Nat) → Option JsonValue
  | v, [] => some v
  | v, s :: rest =>
    match v with
    | .obj o =>
      match o.elems.find? (fun kv => kv.key.data == s) with
      | some kv => specGet kv.value rest
      | none => none
    | .arr a =>
      match parseUsizeBytes s with
      | some idx =>
        match a.elems.get? idx with
        | some e => specGet e rest
        | none => none
      | none => none
    | _ => none

/-- src/json/types.rs `Object::without_pairs`: the object span's indices
with every pair span's indices removed, one difference per pair. -/
def JObject.without_pairs (o : JObject) : List Nat :=
  o.elems.foldl (fun acc kv => idxDifference acc kv.span.indices) o.span.indices

/-- src/json/types.rs `KeyValue::without_value`: the pair span's indices
minus the value span's indices. -/
def JKeyValue.without_value (kv : JKeyValue) : List Nat :=
  idxDifference kv.span.indices kv.value.span.indices

/-- src/json/types.rs `Array::without_values`: only the span's minimum and
maximum index (the brackets) — `RangeSet::from([min..min+1, max..max+1])`.
The source panics on an empty span (unreachable for parsed arrays); the
model returns the empty set there. -/
def JArray.without_values (a : JArray) : List Nat :=
  match a.span.indices.min?, a.span.indices.max? with
  | some s, some e => if s = e then [s] else [s, e]
  | _, _ => []

/-! Span-level JSON parser.  Modelled from the spec: the function
`parse_str`, which the repository's tests and doc examples call to produce
the span-level `JsonValue` tree, is not under src/ — only its callers are.
The model follows the spec's grammar (section 4.3) and span rules (section
3): leaf spans cover the exact lexeme, string and key spans exclude the
surrounding quotes, a pair's span covers the key through the value trimmed
of trailing whitespace, and container spans run from the opening to the
closing delimiter inclusive. -/

/-- Modelled from the spec: scan the content of a string literal from just
after the opening quote, an escape being a backslash plus any byte, and
return the position of the closing quote. -/
def scanStrContent (src : List Nat) : Nat → Nat → Option Nat
  | 0, _ => none
  | fuel + 1, pos =>
    match src.get? pos with
    | none => none
    | some 34 => some pos
    | some 92 =>
      match src.get? (pos + 1) with
      | none => none
      | some _ => scanStrContent src fuel (pos + 2)
    | some _ => scanStrContent src fuel (pos + 1)

/-- Modelled from the spec: the number lexeme
`number := '-'? (0|[1-9]digit*) ('.' digit+)? ([eE][+-]?digit+)?` starting
at `pos`; returns the offset just past it. -/
def scanNumber (src : List Nat) (pos : Nat) : Option Nat :=
  let p1 := match src.get? pos with
    | some 45 => pos + 1
    | _ => pos
  let ip : Option Nat :=
    match src.get? p1 with
    | some 48 =>
      if isDigitByte ((src.get? (p1 + 1)).getD 0) then none else some (p1 + 1)
    | some c =>
      if 49 ≤ c ∧ c ≤ 57 then some (p1 + 1 + countDigits src (p1 + 1)) else none
    | none => none
  match ip with
  | none => none
  | some p2 =>
    let fp : Option Nat :=
      match src.get? p2 with
      | some 46 =>
        let k := countDigits src (p2 + 1)
        if k = 0 then none else some (p2 + 1 + k)
      | _ => some p2
    match fp with
    | none => none
    | some p3 =>
      match src.get? p3 with
      | some 101 => scanExponentTail src p3
      | some 69 => scanExponentTail src p3
      | _ => some p3
where
  /-- Exponent tail: sign optional, at least one digit. -/
  scanExponentTail (src : List Nat) (p : Nat) : Option Nat :=
    let q := match src.get? (p + 1) with
      | some 43 => p + 2
      | some 45 => p + 2
      | _ => p + 1
    let k := countDigits src q
    if k = 0 then none else some (q + k)

/-- Call frames of the spec-modelled span-level parser: value, pair, and
the first/rest states of the object and array bodies (the grammar's
`(ws pair (',' pair)*)?` and `(ws value (',' value)*)?`). -/
inductive PFrame where
  | value (pos : Nat)
  | pair (pos : Nat)
  | objFirst (start pos : Nat)
  | objTail (start pos : Nat) (elems : List JKeyValue)
  | arrFirst (start pos : Nat)
  | arrTail (start pos : Nat) (elems : List JsonValue)

/-- Result of one spec-modelled frame: a value or a key/value pair. -/
inductive PRes where
  | val (v : JsonValue)
  | kvp (kv : JKeyValue)

/-- Modelled from the spec: the span-level recursive-descent parser behind
`parse_str` (not under src/), one fuel-indexed function over call frames.
Grammar: `value := ws (null|bool|number|string|array|object)`;
`object := '{' (ws pair (',' pair)*)? ws '}'`; `pair := key ws ':' value`;
`array := '[' (ws value (',' value)*)? ws ']'`.  Span rules: leaf spans
cover the exact lexeme; string and key spans exclude the surrounding
quotes; a pair's span covers the key's opening quote through the value's
lexeme end (trimmed of trailing whitespace); container spans run from the
opening to the closing delimiter inclusive.  The `none` for an ill-typed
frame result is unreachable: a `.pair` frame always returns `.kvp` and the
others `.val`. -/
def pstrRun (src : List Nat) : Nat → PFrame → Option (PRes × Nat)
  | 0, _ => none
  | fuel + 1, .value pos =>
    let p := skipWs src pos
    match src[p]? with
    | none => none
    | some 110 =>
      if listSlice src p (p + 4) = strBytes "null" then
        some (.val (.null (Span.mk_range src p (p + 4))), p + 4)
      else none
    | some 116 =>
      if listSlice src p (p + 4) = strBytes "true" then
        some (.val (.bool (Span.mk_range src p (p + 4))), p + 4)
      else none
    | some 102 =>
      if listSlice src p (p + 5) = strBytes "false" then
        some (.val (.bool (Span.mk_range src p (p + 5))), p + 5)
      else none
    | some 34 =>
      match scanStrContent src fuel (p + 1) with
      | none => none
      | some close => some (.val (.str (Span.mk_range src (p + 1) close)), close + 1)
    | some 91 => pstrRun src fuel (.arrFirst p (p + 1))
    | some 123 => pstrRun src fuel (.objFirst p (p + 1))
    | some c =>
      if c = 45 ∨ isDigitByte c then
        match scanNumber src p with
        | none => none
        | some e => some (.val (.num (Span.mk_range src p e)), e)
      else none
  | fuel + 1, .pair pos =>
    -- pair := key ws ':' value, pos at the key's opening quote; the pair's
    -- span covers the opening quote through the value's lexeme end.
    match src[pos]? with
    | some 34 =>
      match scanStrContent src fuel (pos + 1) with
      | none => none
      | some close =>
        let pc := skipWs src (close + 1)
        match src[pc]? with
        | some 58 =>
          match pstrRun src fuel (.value (pc + 1)) with
          | some (.val v, ve) =>
            some (.kvp ⟨Span.mk_range src pos ve, Span.mk_range src (pos + 1) close, v⟩, ve)
          | _ => none
        | _ => none
    | _ => none
  | fuel + 1, .objFirst start pos =>
    -- object body right after the opening brace: an immediate closing brace
    -- or a first pair followed by the comma-separated tail.
    let p := skipWs src pos
    match src[p]? with
    | some 125 => some (.val (.obj ⟨Span.mk_range src start (p + 1), []⟩), p + 1)
    | some 34 =>
      match pstrRun src fuel (.pair p) with
      | some (.kvp kv, p2) => pstrRun src fuel (.objTail start p2 [kv])
      | _ => none
    | _ => none
  | fuel + 1, .objTail start pos elems =>
    -- after a pair only ws '}' or ',' pair may follow.
    let p := skipWs src pos
    match src[p]? with
    | some 125 => some (.val (.obj ⟨Span.mk_range src start (p + 1), elems⟩), p + 1)
    | some 44 =>
      let pk := skipWs src (p + 1)
      match pstrRun src fuel (.pair pk) with
      | some (.kvp kv, p2) => pstrRun src fuel (.objTail start p2 (elems ++ [kv]))
      | _ => none
    | _ => none
  | fuel + 1, .arrFirst start pos =>
    -- array body right after the opening bracket.
    let p := skipWs src pos
    match src[p]? with
    | some 93 => some (.val (.arr ⟨Span.mk_range src start (p + 1), []⟩), p + 1)
    | _ =>
      match pstrRun src fuel (.value pos) with
      | some (.val v, p2) => pstrRun src fuel (.arrTail start p2 [v])
      | _ => none
  | fuel + 1, .arrTail start pos elems =>
    -- after an element only ws ']' or ',' value may follow.
    let p := skipWs src pos
    match src[p]? with
    | some 93 => some (.val (.arr ⟨Span.mk_range src start (p + 1), elems⟩), p + 1)
    | some 44 =>
      match pstrRun src fuel (.value (p + 1)) with
      | some (.val v, p2) => pstrRun src fuel (.arrTail start p2 (elems ++ [v]))
      | _ => none
    | _ => none

/-- Modelled from the spec: `parse_str`, the span-level parsing entry point
the repository's tests and doc examples use (not under src/): one JSON value
parsed from offset 0. -/
def parseStrModel (src : List Nat) : Option JsonValue :=
  match pstrRun src (2 * src.length + 8) (.value 0) with
  | some (.val v, _) => some v
  | _ => none

/-! General lemmas about the helpers. -/

/-- Extracting a contiguous in-bounds index range from a buffer yields the
corresponding slice. -/
theorem extractIdx_range' (src : List Nat) :
    ∀ (n a : Nat), a + n ≤ src.length →
      extractIdx src (List.range' a n) = (src.drop a).take n := by
  intro n
  induction n with
  | zero => intro a _; simp [extractIdx]
  | succ n ih =>
    intro a ha
    have haa : a < src.length := by omega
    rw [List.range'_succ]
    have hdrop : src.drop a = src[a] :: src.drop (a + 1) :=
      List.drop_eq_getElem_cons haa
    simp only [extractIdx, List.filterMap_cons] at *
    rw [List.getElem?_eq_getElem haa]
    have := ih (a + 1) (by omega)
    simp only [extractIdx] at this
    rw [this, hdrop, List.take_succ_cons]

/-- Extracting a span made from an in-bounds range reproduces its data. -/
theorem extractIdx_mk_range (src : List Nat) (a b : Nat) (hb : b ≤ src.length) :
    extractIdx src (Span.mk_range src a b).indices = (Span.mk_range src a b).data := by
  by_cases hab : a ≤ b
  · simp only [Span.mk_range, rangeIdx, listSlice]
    exact extractIdx_range' src (b - a) a (by omega)
  · have : b - a = 0 := by omega
    simp [Span.mk_range, rangeIdx, listSlice, this, extractIdx]

/-- Membership in a left fold of index-set differences: an index survives
iff it is in the start set and in none of the subtracted sets. -/
theorem mem_foldl_idxDifference {α : Type} (g : α → List Nat) :
    ∀ (l : List α) (acc : List Nat) (x : Nat),
      (x ∈ l.foldl (fun a e => idxDifference a (g e)) acc) ↔
        (x ∈ acc ∧ ∀ e ∈ l, x ∉ g e) := by
  intro l
  induction l with
  | nil => intro acc x; simp
  | cons e t ih =>
    intro acc x
    simp only [List.foldl_cons]
    rw [ih]
    have hciff : ∀ (l : List Nat) (y : Nat), l.contains y = false ↔ y ∉ l := by
      intro l y
      simp [List.contains, List.elem_iff]
    simp only [idxDifference, List.mem_filter, Bool.not_eq_true', List.forall_mem_cons, hciff]
    tauto

/-! Claim C3: span equality. -/

/-- C3 counterexample: two spans over one buffer with equal referenced bytes
but different index sets are NOT equal — the derived `PartialEq` of
`Span` compares the index set too.  Concretely, over the buffer "aa", the
span of 0..1 and the span of 1..2 both reference the byte "a" but compare
unequal. -/
theorem span_eq_ignores_indices_cex :
    (Span.mk_range (strBytes "aa") 0 1).data = (Span.mk_range (strBytes "aa") 1 2).data
    ∧ Span.mk_range (strBytes "aa") 0 1 ≠ Span.mk_range (strBytes "aa") 1 2 := by
  exact ⟨rfl, by decide⟩

/-- C3 amended: two spans are equal iff their referenced bytes are equal AND
their index sets are equal; buffer identity still plays no part (the data
field is compared by content, and two spans built over different buffers are
equal whenever slices and ranges agree). -/
theorem span_eq_iff_data_and_indices :
    (∀ s t : Span, s = t ↔ (s.data = t.data ∧ s.indices = t.indices))
    ∧ (∀ (src₁ src₂ : List Nat) (a₁ b₁ a₂ b₂ : Nat),
        Span.mk_range src₁ a₁ b₁ = Span.mk_range src₂ a₂ b₂ ↔
          (listSlice src₁ a₁ b₁ = listSlice src₂ a₂ b₂ ∧ rangeIdx a₁ b₁ = rangeIdx a₂ b₂)) := by
  constructor
  · intro s t
    cases s; cases t
    simp [Span.mk.injEq]
  · intro src₁ src₂ a₁ b₁ a₂ b₂
    simp [Span.mk_range, Span.mk.injEq]

/-! Claim C6: the JSON grammar's comma discipline. -/

/-- C6 counterexample: the input [1,,2], which violates the stated grammar
(two consecutive commas), is accepted by the parser — the element loop
consumes any comma it meets and never requires one between elements. -/
theorem json_comma_violation_accepted_cex :
    jsonParse (strBytes "[1,,2]") = .ok (.arr (0, 6) [.num (1, 2), .num (4, 5)]) := rfl

/-- C6 amended: object and array parsing does not enforce the stated comma
discipline.  Inside a container the parser treats commas as skippable
separator bytes: inputs with duplicate commas ([1,,2]), no comma between
elements ([1 2]), only a comma ({,}), or a leading comma ([,1]) are all
accepted, yielding the same elements as their well-formed counterparts,
while genuinely malformed input (an unterminated container, a bad literal,
a missing colon) is still rejected with a syntax error. -/
theorem json_comma_discipline_not_enforced :
    jsonParse (strBytes "[1,2]") = .ok (.arr (0, 5) [.num (1, 2), .num (3, 4)])
    ∧ jsonParse (strBytes "[1,,2]") = .ok (.arr (0, 6) [.num (1, 2), .num (4, 5)])
    ∧ jsonParse (strBytes "[1 2]") = .ok (.arr (0, 5) [.num (1, 2), .num (3, 4)])
    ∧ jsonParse (strBytes "\x7b,\x7d") = .ok (.obj (0, 3) [])
    ∧ jsonParse (strBytes "[,1]") = .ok (.arr (0, 4) [.num (2, 3)])
    ∧ jsonParse (strBytes "[1") = .error .EofWhileParsingList
    ∧ jsonParse (strBytes "0123") = .error .InvalidNumber
    ∧ jsonParse (strBytes "x") = .error .ExpectedSomeValue
    ∧ jsonParse (strBytes "\x7b\x22a\x22 \x22b\x22\x7d") = .error .ExpectedColon := by
  exact ⟨rfl, rfl, rfl, rfl, rfl, rfl, rfl, rfl, rfl⟩

/-! Claim C7: string and key spans versus the surrounding quotes. -/

/-- C7: at the failing inputs, the ranges the parser records for a String
value and for an object key INCLUDE the surrounding double quotes — for
the four-byte document made of a quote, h, i, quote, the String node's range
is 0..4 (both quote bytes inside), and in the seven-byte object the key's
range is 1..4, covering both quotes of the key literal.  The spec (and the
repository's own tests and doc examples, which compare key and string spans
against unquoted text) requires the quotes to be excluded. -/
theorem json_string_and_key_spans_include_quotes :
    jsonParse (strBytes "\x22hi\x22") = .ok (.str (0, 4))
    ∧ (strBytes "\x22hi\x22")[0]? = some 34
    ∧ (strBytes "\x22hi\x22")[3]? = some 34
    ∧ jsonParse (strBytes "\x7b\x22a\x22:1\x7d") = .ok (.obj (0, 7) [((1, 4), .num (5, 6))])
    ∧ (strBytes "\x7b\x22a\x22:1\x7d")[1]? = some 34
    ∧ (strBytes "\x7b\x22a\x22:1\x7d")[3]? = some 34 := by
  exact ⟨rfl, rfl, rfl, rfl, rfl, rfl⟩

/-! Claim C4: the redaction operations `without_pairs` and `without_values`. -/

/-- Source text of the C4 object example: an open brace, the quoted key foo,
a colon, a space, the quoted value bar, a newline, a close brace. -/
def c4ObjSrc : List Nat := strBytes "\x7b\x22foo\x22: \x22bar\x22\n\x7d"

/-- Source text of the C4 array example. -/
def c4ArrSrc : List Nat := strBytes "[42, 14]"

/-- Placeholder object for the unreachable non-object branch. -/
def emptyJObject : JObject := ⟨⟨[], []⟩, []⟩

/-- Placeholder array for the unreachable non-array branch. -/
def emptyJArray : JArray := ⟨⟨[], []⟩, []⟩

/-- The parsed C4 object. -/
def c4Obj : JObject :=
  match parseStrModel c4ObjSrc with
  | some (.obj o) => o
  | _ => emptyJObject

/-- The parsed C4 array. -/
def c4Arr : JArray :=
  match parseStrModel c4ArrSrc with
  | some (.arr a) => a
  | _ => emptyJArray

/-- C4 counterexample: for the parsed array of the source [42, 14],
`without_values` is NOT the index-set difference of the array span against
the child element spans — the difference leaves the separator bytes (the
comma and the space, indices 3 and 4) in place, while `without_values`
returns only the two bracket indices. -/
theorem array_without_values_not_difference_cex :
    parseStrModel c4ArrSrc = some (.arr c4Arr)
    ∧ (c4Arr.elems.foldl (fun acc e => idxDifference acc (JsonValue.span e).indices)
        c4Arr.span.indices) = [0, 3, 4, 7]
    ∧ c4Arr.without_values = [0, 7]
    ∧ c4Arr.without_values ≠
      (c4Arr.elems.foldl (fun acc e => idxDifference acc (JsonValue.span e).indices)
        c4Arr.span.indices) := by
  exact ⟨rfl, rfl, rfl, by decide⟩

/-- C4 amended: `Object.without_pairs` is the object span's indices minus
the indices of every child KeyValue span (an index survives iff it is in
the object span and in no pair span), and slicing the example source at its
result yields the brace, newline, brace bytes.  `Array.without_values` is
NOT an index-set difference against the child spans: it returns exactly the
span's minimum and maximum index — the two bracket positions — thereby
dropping separators as well as values, and slicing [42, 14] at its result
yields the two bracket bytes. -/
theorem without_pairs_and_without_values_spec :
    (∀ (o : JObject) (x : Nat),
        x ∈ o.without_pairs ↔
          (x ∈ o.span.indices ∧ ∀ kv ∈ o.elems, x ∉ (JKeyValue.span kv).indices))
    ∧ parseStrModel c4ObjSrc = some (.obj c4Obj)
    ∧ c4Obj.without_pairs = [0, 13, 14]
    ∧ extractIdx c4ObjSrc c4Obj.without_pairs = strBytes "\x7b\n\x7d"
    ∧ parseStrModel c4ArrSrc = some (.arr c4Arr)
    ∧ c4Arr.without_values = [0, 7]
    ∧ extractIdx c4ArrSrc c4Arr.without_values = strBytes "[]" := by
  refine ⟨?_, rfl, rfl, rfl, rfl, rfl, rfl⟩
  intro o x
  exact mem_foldl_idxDifference (fun kv => (JKeyValue.span kv).indices) o.elems o.span.indices x

/-! Claim C9: dotted-path lookup. -/

/-- The head byte of a non-empty dropWhile result falsifies the predicate;
for the dot-splitting predicate this means the byte is the dot. -/
theorem dropWhile_dot_head (l : List Nat) (c : Nat) (t : List Nat)
    (h : l.dropWhile (fun b => !(b == 46)) = c :: t) : c = 46 := by
  induction l with
  | nil => simp at h
  | cons x xs ih =>
    by_cases hx : x = 46
    · subst hx
      simp [List.dropWhile_cons] at h
      omega
    · rw [List.dropWhile_cons] at h
      simp [hx] at h
      exact ih h

/-- A path contains no dot iff the dot-splitting dropWhile is empty. -/
theorem no_dot_iff_dropWhile_nil (l : List Nat) :
    (l.contains 46 = false) ↔ l.dropWhile (fun b => !(b == 46)) = [] := by
  rw [List.dropWhile_eq_nil_iff]
  constructor
  · intro h x hx
    simp only [Bool.not_eq_true']
    rw [beq_eq_false_iff_ne]
    intro hx46
    subst hx46
    have : l.contains 46 = true := List.elem_iff.mpr hx
    rw [h] at this
    exact Bool.false_ne_true this
  · intro h
    rw [Bool.eq_false_iff]
    intro hel
    have h46 := h 46 (List.elem_iff.mp hel)
    simp at h46

/-- Splitting never yields the empty segment list. -/
theorem splitDotAux_ne_nil : ∀ (l acc : List Nat), splitDotAux acc l ≠ [] := by
  intro l
  induction l with
  | nil => intro acc; simp [splitDotAux]
  | cons c t ih =>
    intro acc
    rw [splitDotAux]
    by_cases hc : (c == 46) = true
    · simp [hc]
    · simp only [hc]
      simp only [Bool.false_eq_true, if_false]
      exact ih (c :: acc)

/-- Closed form of the splitting accumulator: the first segment is the
accumulated prefix plus the bytes before the first dot, and the remaining
segments are the split of what follows the dot. -/
theorem splitDotAux_spec : ∀ (l acc : List Nat),
    splitDotAux acc l =
      (acc.reverse ++ l.takeWhile (fun b => !(b == 46))) ::
        (match l.dropWhile (fun b => !(b == 46)) with
         | [] => []
         | _ :: t => splitDotAux [] t) := by
  intro l
  induction l with
  | nil => intro acc; simp [splitDotAux]
  | cons c t ih =>
    intro acc
    rw [splitDotAux]
    by_cases hc : (c == 46) = true
    · have hc' : c = 46 := by
        rwa [beq_iff_eq] at hc
      subst hc'
      simp [List.takeWhile_cons, List.dropWhile_cons]
    · rw [if_neg (by simp [hc])]
      rw [ih (c :: acc)]
      have hcc : (!(c == 46)) = true := by simp [hc]
      rw [List.takeWhile_cons, List.dropWhile_cons]
      simp only [hcc, if_true]
      simp

/-- Split of a dot-free path: the single segment is the path itself. -/
theorem splitDot_no_dot (l : List Nat) (h : l.contains 46 = false) :
    splitDot l = [l] := by
  have hd := (no_dot_iff_dropWhile_nil l).mp h
  have ht : l.takeWhile (fun b => !(b == 46)) = l := by
    have := List.takeWhile_append_dropWhile (p := fun b => !(b == 46)) (l := l)
    rw [hd, List.append_nil] at this
    exact this
  rw [splitDot, splitDotAux_spec, hd, ht]
  simp

/-- Split of a path with a dot: the first segment, then the split of the
bytes after the first dot — which are exactly `l.drop (segment.length + 1)`. -/
theorem splitDot_with_dot (l : List Nat) (h : l.contains 46 = true) :
    splitDot l =
      l.takeWhile (fun b => !(b == 46)) ::
        splitDot (l.drop ((l.takeWhile (fun b => !(b == 46))).length + 1)) := by
  have hne : l.dropWhile (fun b => !(b == 46)) ≠ [] := by
    intro hnil
    rw [← no_dot_iff_dropWhile_nil] at hnil
    rw [h] at hnil
    simp at hnil
  obtain ⟨c, t, hct⟩ := List.exists_cons_of_ne_nil hne
  have hdrop : l.drop ((l.takeWhile (fun b => !(b == 46))).length + 1) = t := by
    set A := l.takeWhile (fun b => !(b == 46)) with hA
    set B := l.dropWhile (fun b => !(b == 46)) with hB
    have hsplitl : A ++ B = l := List.takeWhile_append_dropWhile (fun b => !(b == 46)) l
    have hk : l.drop A.length = B := by
      rw [← hsplitl, List.drop_left]
    have hstep : l.drop (A.length + 1) = (l.drop A.length).drop 1 := by
      rw [List.drop_drop, Nat.add_comm]
    rw [hstep, hk, hct]
    simp
  rw [splitDot, splitDotAux_spec, hct, hdrop]
  simp [splitDot]

/-- Decomposition length fact: with a dot present, the bytes after the
first dot are strictly fewer than the whole path's bytes. -/
theorem drop_after_dot_lt (l : List Nat) (h : l.contains 46 = true) :
    (l.drop ((l.takeWhile (fun b => !(b == 46))).length + 1)).length < l.length := by
  have hne : l ≠ [] := by
    intro hnil
    subst hnil
    simp [List.contains] at h
  have hpos : 0 < l.length := List.length_pos.mpr hne
  rw [List.length_drop]
  omega

/-- Fueled lookup agrees with the segment-wise specification lookup when the
fuel exceeds the path length. -/
theorem jsonGetF_eq_specGet :
    ∀ (fuel : Nat) (v : JsonValue) (path : List Nat),
      path.length < fuel → jsonGetF fuel v path = specGet v (splitDot path) := by
  intro fuel
  induction fuel with
  | zero => intro v path h; exact absurd h (Nat.not_lt_zero _)
  | succ fuel ih =>
    intro v path hlt
    obtain ⟨s₀, rest, hsplit⟩ : ∃ s₀ rest, splitDot path = s₀ :: rest := by
      rcases hsp : splitDot path with _ | ⟨s₀, rest⟩
      · exact absurd hsp (splitDotAux_ne_nil path [])
      · exact ⟨s₀, rest, rfl⟩
    cases v with
    | null s => rw [hsplit]; rfl
    | bool s => rw [hsplit]; rfl
    | num s => rw [hsplit]; rfl
    | str s => rw [hsplit]; rfl
    | arr a =>
      by_cases hc : path.contains 46 = true
      · rw [splitDot_with_dot path hc]
        simp only [jsonGetF, specGet, hc, if_true]
        cases hp : parseUsizeBytes (path.takeWhile (fun b => !(b == 46))) with
        | none => rfl
        | some idx =>
          cases hg : a.elems.get? idx with
          | none => simp only [hg]
          | some e =>
            simp only [hg]
            exact ih e _ (lt_of_lt_of_le (drop_after_dot_lt path hc) (by omega))
      · have hcf : path.contains 46 = false := by
          rw [Bool.eq_false_iff]
          exact hc
        rw [splitDot_no_dot path hcf]
        have ht : path.takeWhile (fun b => !(b == 46)) = path := by
          have hd := (no_dot_iff_dropWhile_nil path).mp hcf
          have := List.takeWhile_append_dropWhile (fun b => !(b == 46)) path
          rw [hd, List.append_nil] at this
          exact this
        simp only [jsonGetF, specGet, hcf, ht, Bool.false_eq_true, if_false]
        cases hp : parseUsizeBytes path with
        | none => rfl
        | some idx =>
          cases hg : a.elems.get? idx with
          | none => simp only [hg]
          | some e => simp only [hg, specGet]
    | obj o =>
      by_cases hc : path.contains 46 = true
      · rw [splitDot_with_dot path hc]
        simp only [jsonGetF, specGet, hc, if_true]
        cases hf : o.elems.find? (fun kv => (JKeyValue.key kv).data == path.takeWhile (fun b => !(b == 46))) with
        | none => rfl
        | some kv =>
          simp only [hf]
          exact ih (JKeyValue.value kv) _
            (lt_of_lt_of_le (drop_after_dot_lt path hc) (by omega))
      · have hcf : path.contains 46 = false := by
          rw [Bool.eq_false_iff]
          exact hc
        rw [splitDot_no_dot path hcf]
        have ht : path.takeWhile (fun b => !(b == 46)) = path := by
          have hd := (no_dot_iff_dropWhile_nil path).mp hcf
          have := List.takeWhile_append_dropWhile (fun b => !(b == 46)) path
          rw [hd, List.append_nil] at this
          exact this
        simp only [jsonGetF, specGet, hcf, ht, Bool.false_eq_true, if_false]
        cases hf : o.elems.find? (fun kv => (JKeyValue.key kv).data == path) with
        | none => rfl
        | some kv => simp only [hf, specGet]

/-- Source text of the C9 path-lookup example. -/
def c9Src : List Nat := strBytes "\x7b\x22foo\x22: \x7b\x22bar\x22: [42, 14]\x7d\x7d"

/-- The parsed C9 document. -/
def c9Val : JsonValue := (parseStrModel c9Src).getD (.null ⟨[], []⟩)

/-- C9: dotted-path lookup returns a value exactly when every successive
segment matches the current node — an object key by string equality, or an
array index parsed as an unsigned integer that is in bounds — and fails at
the first mismatch with no partial result (`get` coincides with the
segment-wise specification lookup over the split path).  For the example
source, the path foo.bar.1 yields the Number whose span is the two bytes
"14" at indices 21..23, while a missing key, an out-of-bounds index or a
leaf node yield nothing. -/
theorem json_get_path_spec :
    (∀ (v : JsonValue) (path : List Nat), v.get path = specGet v (splitDot path))
    ∧ parseStrModel c9Src = some c9Val
    ∧ c9Val.get (strBytes "foo.bar.1") = some (.num ⟨strBytes "14", [21, 22]⟩)
    ∧ extractIdx c9Src [21, 22] = strBytes "14"
    ∧ c9Val.get (strBytes "foo.baz") = none
    ∧ c9Val.get (strBytes "foo.bar.2") = none
    ∧ c9Val.get (strBytes "foo.bar.1.0") = none := by
  refine ⟨?_, rfl, rfl, rfl, rfl, rfl, rfl⟩
  intro v path
  exact jsonGetF_eq_specGet (path.length + 1) v path (Nat.lt_succ_self _)

/-! Claim C8: case-insensitive header lookup. -/

/-- Filtering headers by two names with equal ASCII-lowercasings gives the
same result. -/
theorem headersFilter_congr (hs : List Header) (n₁ n₂ : List Nat)
    (h : n₁.map toLowerByte = n₂.map toLowerByte) :
    hs.filter (fun x => eqIgnoreAsciiCase x.name.s.data n₁)
      = hs.filter (fun x => eqIgnoreAsciiCase x.name.s.data n₂) := by
  apply List.filter_congr
  intro a _
  unfold eqIgnoreAsciiCase
  rw [h]

/-- C8: headers_with_name yields exactly the headers whose name matches the
query ASCII-case-insensitively — the result is a sublist of the headers
(document order), membership holds iff the header is present and its name
matches, every duplicate is kept (matching headers keep their multiplicity),
lookups under names with equal lowercasings agree, and in particular the
queries Host and host give identical results; all of this for requests and
responses alike. -/
theorem headers_with_name_spec :
    (∀ (r : Request) (name : List Nat), (r.headersWithName name).Sublist r.headers)
    ∧ (∀ (r : Request) (name : List Nat) (h : Header),
        h ∈ r.headersWithName name ↔
          (h ∈ r.headers ∧ eqIgnoreAsciiCase h.name.s.data name = true))
    ∧ (∀ (r : Request) (name : List Nat) (h : Header),
        eqIgnoreAsciiCase h.name.s.data name = true →
          (r.headersWithName name).count h = r.headers.count h)
    ∧ (∀ (r : Request) (n₁ n₂ : List Nat), n₁.map toLowerByte = n₂.map toLowerByte →
        r.headersWithName n₁ = r.headersWithName n₂)
    ∧ (∀ r : Request, r.headersWithName (strBytes "Host") = r.headersWithName (strBytes "host"))
    ∧ (∀ (r : Response) (name : List Nat), (r.headersWithName name).Sublist r.headers)
    ∧ (∀ (r : Response) (name : List Nat) (h : Header),
        h ∈ r.headersWithName name ↔
          (h ∈ r.headers ∧ eqIgnoreAsciiCase h.name.s.data name = true))
    ∧ (∀ (r : Response) (name : List Nat) (h : Header),
        eqIgnoreAsciiCase h.name.s.data name = true →
          (r.headersWithName name).count h = r.headers.count h)
    ∧ (∀ (r : Response) (n₁ n₂ : List Nat), n₁.map toLowerByte = n₂.map toLowerByte →
        r.headersWithName n₁ = r.headersWithName n₂)
    ∧ (∀ r : Response, r.headersWithName (strBytes "Host") = r.headersWithName (strBytes "host")) := by
  refine ⟨?_, ?_, ?_, ?_, ?_, ?_, ?_, ?_, ?_, ?_⟩
  · intro r name
    exact List.filter_sublist r.headers
  · intro r name h
    exact List.mem_filter
  · intro r name h hp
    exact List.count_filter hp
  · intro r n₁ n₂ hmap
    exact headersFilter_congr r.headers n₁ n₂ hmap
  · intro r
    exact headersFilter_congr r.headers _ _ (by decide)
  · intro r name
    exact List.filter_sublist r.headers
  · intro r name h
    exact List.mem_filter
  · intro r name h hp
    exact List.count_filter hp
  · intro r n₁ n₂ hmap
    exact headersFilter_congr r.headers n₁ n₂ hmap
  · intro r
    exact headersFilter_congr r.headers _ _ (by decide)

/-! Claims C5 and C10: the streaming iterators. -/

/-- Placeholder request for the unreachable error branch of an extraction. -/
def dummyRequest : Request := ⟨⟨[], []⟩, ⟨⟨[], []⟩, ⟨[], []⟩, ⟨[], []⟩⟩, [], none⟩

/-- Placeholder response for the unreachable error branch of an extraction. -/
def dummyResponse : Response := ⟨⟨[], []⟩, ⟨⟨[], []⟩, ⟨[], []⟩, ⟨[], []⟩⟩, [], none⟩

/-- Buffer with two back-to-back requests (27 and 40 bytes). -/
def c5ReqSrc : List Nat :=
  strBytes "GET / HTTP/1.1\r\nHost: a\r\n\r\nPOST / HTTP/1.1\r\nContent-Length: 2\r\n\r\nhi"

/-- Buffer with two back-to-back responses (40 and 30 bytes). -/
def c5RespSrc : List Nat :=
  strBytes "HTTP/1.1 200 OK\r\nContent-Length: 2\r\n\r\nokHTTP/1.1 204 NC\r\nServer: x\r\n\r\n"

/-- First request of the two-request buffer. -/
def c5Req1 : Request :=
  match parse_request_from_bytes c5ReqSrc 0 with
  | .ok r => r
  | .error _ => dummyRequest

/-- Second request of the two-request buffer. -/
def c5Req2 : Request :=
  match parse_request_from_bytes c5ReqSrc 27 with
  | .ok r => r
  | .error _ => dummyRequest

/-- First response of the two-response buffer. -/
def c5Resp1 : Response :=
  match parse_response_from_bytes c5RespSrc 0 with
  | .ok r => r
  | .error _ => dummyResponse

/-- Second response of the two-response buffer. -/
def c5Resp2 : Response :=
  match parse_response_from_bytes c5RespSrc 40 with
  | .ok r => r
  | .error _ => dummyResponse

/-- C5: one `next` call of the Requests/Responses iterator yields nothing —
and no error — exactly when the position has reached the end of the buffer;
on a successful parse it yields the message and advances the position by
exactly the message span's length.  On the two-message example buffers the
iterators yield the messages in order with adjacent, non-overlapping spans
(0..27 then 27..67 for the requests; 0..40 then 40..70 for the responses)
and then stop cleanly. -/
theorem streaming_iterators_spec :
    (∀ (src : List Nat) (pos : Nat), (requestsNext src pos).1 = none ↔ src.length ≤ pos)
    ∧ (∀ (src : List Nat) (pos : Nat) (req : Request), pos < src.length →
        parse_request_from_bytes src pos = .ok req →
        requestsNext src pos = (some (.ok req), pos + req.span.len))
    ∧ (∀ (src : List Nat) (pos : Nat), (responsesNext src pos).1 = none ↔ src.length ≤ pos)
    ∧ (∀ (src : List Nat) (pos : Nat) (resp : Response), pos < src.length →
        parse_response_from_bytes src pos = .ok resp →
        responsesNext src pos = (some (.ok resp), pos + resp.span.len))
    ∧ requestsList c5ReqSrc 0 3 = [.ok c5Req1, .ok c5Req2]
    ∧ c5Req1.span.indices = rangeIdx 0 27
    ∧ c5Req2.span.indices = rangeIdx 27 67
    ∧ c5ReqSrc.length = 67
    ∧ requestsNext c5ReqSrc 67 = (none, 67)
    ∧ responsesList c5RespSrc 0 3 = [.ok c5Resp1, .ok c5Resp2]
    ∧ c5Resp1.span.indices = rangeIdx 0 40
    ∧ c5Resp2.span.indices = rangeIdx 40 70
    ∧ c5RespSrc.length = 70
    ∧ responsesNext c5RespSrc 70 = (none, 70) := by
  refine ⟨?_, ?_, ?_, ?_, rfl, rfl, rfl, rfl, rfl, rfl, rfl, rfl, rfl, rfl⟩
  · intro src pos
    unfold requestsNext
    by_cases h : pos ≥ src.length
    · simp [h]
    · have h' : ¬ src.length ≤ pos := h
      rw [if_neg h]
      cases parse_request_from_bytes src pos with
      | ok r => simpa using h'
      | error e => simpa using h'
  · intro src pos req hpos hparse
    unfold requestsNext
    rw [if_neg (by omega), hparse]
  · intro src pos
    unfold responsesNext
    by_cases h : pos ≥ src.length
    · simp [h]
    · have h' : ¬ src.length ≤ pos := h
      rw [if_neg h]
      cases parse_response_from_bytes src pos with
      | ok r => simpa using h'
      | error e => simpa using h'
  · intro src pos resp hpos hparse
    unfold responsesNext
    rw [if_neg (by omega), hparse]

/-- C5 witness: the step characterization instantiated at the start of the
two-request buffer. -/
theorem streaming_iterators_spec_witness :
    (0 < c5ReqSrc.length ∧ parse_request_from_bytes c5ReqSrc 0 = .ok c5Req1)
    ∧ requestsNext c5ReqSrc 0 = (some (.ok c5Req1), 0 + c5Req1.span.len) :=
  ⟨⟨by decide, rfl⟩,
    streaming_iterators_spec.2.1 c5ReqSrc 0 c5Req1 (by decide) rfl⟩

/-- C10: when a parse at the current position fails, `next` yields the error
and leaves the position unchanged, so every later call to `next` — any
number of steps on — yields the very same error again at the same position:
after the first error the iterator never yields a further message and never
returns the end-of-iteration signal. -/
theorem iterator_error_leaves_position :
    (∀ (src : List Nat) (pos : Nat) (e : ParseError), pos < src.length →
        parse_request_from_bytes src pos = .error e →
        (requestsNext src pos = (some (.error e), pos)
          ∧ ∀ k : Nat, requestsNextN src pos (k + 1) = (some (.error e), pos)))
    ∧ (∀ (src : List Nat) (pos : Nat) (e : ParseError), pos < src.length →
        parse_response_from_bytes src pos = .error e →
        (responsesNext src pos = (some (.error e), pos)
          ∧ ∀ k : Nat, responsesNextN src pos (k + 1) = (some (.error e), pos))) := by
  constructor
  · intro src pos e hpos hparse
    have hstep : requestsNext src pos = (some (.error e), pos) := by
      unfold requestsNext
      rw [if_neg (by omega), hparse]
    refine ⟨hstep, ?_⟩
    intro k
    induction k with
    | zero => exact hstep
    | succ k ihk =>
      show requestsNextN src (requestsNext src pos).2 (k + 1) = _
      rw [hstep]
      exact ihk
  · intro src pos e hpos hparse
    have hstep : responsesNext src pos = (some (.error e), pos) := by
      unfold responsesNext
      rw [if_neg (by omega), hparse]
    refine ⟨hstep, ?_⟩
    intro k
    induction k with
    | zero => exact hstep
    | succ k ihk =>
      show responsesNextN src (responsesNext src pos).2 (k + 1) = _
      rw [hstep]
      exact ihk

/-- C10 witness: a three-byte buffer with no complete head errors at
position 0, and the second and fifth calls still return the same error at
the same position. -/
theorem iterator_error_leaves_position_witness :
    (0 < (strBytes "xyz").length
      ∧ parse_request_from_bytes (strBytes "xyz") 0 = .error "incomplete request")
    ∧ (requestsNext (strBytes "xyz") 0 = (some (.error "incomplete request"), 0)
      ∧ ∀ k : Nat, requestsNextN (strBytes "xyz") 0 (k + 1)
          = (some (.error "incomplete request"), 0)) :=
  ⟨⟨by decide, rfl⟩,
    iterator_error_leaves_position.1 (strBytes "xyz") 0 "incomplete request" (by decide) rfl⟩

/-! Claim C2: Transfer-Encoding handling. -/

/-- A successful request body-length resolution implies no Transfer-Encoding
header was present (the source checks it first and errors). -/
theorem request_body_len_ok_no_te (r : Request) (n : Nat)
    (h : request_body_len r = .ok n) :
    r.headersWithName (strBytes "Transfer-Encoding") = [] := by
  unfold request_body_len at h
  by_cases he : (r.headersWithName (strBytes "Transfer-Encoding")).isEmpty = true
  · exact List.isEmpty_iff.mp he
  · rw [Bool.not_eq_true] at he
    rw [he] at h
    simp at h

/-- A successful response body-length resolution implies either no
Transfer-Encoding header, or a bodyless status code (1xx, 204 or 304),
which the source checks before the framing headers. -/
theorem response_body_len_ok_inv (r : Response) (n : Nat)
    (h : response_body_len r = .ok n) :
    r.headersWithName (strBytes "Transfer-Encoding") = []
      ∨ ∃ c, parseUsizeBytes r.status.code.data = some c
          ∧ ((100 ≤ c ∧ c ≤ 199) ∨ c = 204 ∨ c = 304) := by
  unfold response_body_len at h
  cases hc : parseUsizeBytes r.status.code.data with
  | none => rw [hc] at h; exact Except.noConfusion h
  | some c =>
    rw [hc] at h
    have h' : (if (100 ≤ c ∧ c ≤ 199) ∨ c = 204 ∨ c = 304 then (Except.ok 0 : Except ParseError Nat)
        else if (!(r.headersWithName (strBytes "Transfer-Encoding")).isEmpty) = true then
          .error "Transfer-Encoding not supported yet"
        else
          match r.headersWithName (strBytes "Content-Length") with
          | hh :: _ =>
            match parseUsizeBytes hh.value.s.data with
            | some n => .ok n
            | none => .error "failed to parse Content-Length value"
          | [] =>
            .error "A response with a body must contain either a Content-Length or Transfer-Encoding header") = .ok n := h
    by_cases hb : (100 ≤ c ∧ c ≤ 199) ∨ c = 204 ∨ c = 304
    · exact Or.inr ⟨c, rfl, hb⟩
    · rw [if_neg hb] at h'
      by_cases he : (r.headersWithName (strBytes "Transfer-Encoding")).isEmpty = true
      · exact Or.inl (List.isEmpty_iff.mp he)
      · rw [Bool.not_eq_true] at he
        rw [he] at h'
        simp at h'

/-- Source of the C2 counterexample: a 204 response carrying a
Transfer-Encoding header. -/
def c2RespSrc : List Nat :=
  strBytes "HTTP/1.1 204 No Content\r\nTransfer-Encoding: chunked\r\n\r\n"

/-- The parsed C2 counterexample response. -/
def c2Resp : Response :=
  match parse_response_from_bytes c2RespSrc 0 with
  | .ok r => r
  | .error _ => dummyResponse

/-- C2 counterexample: a response whose head parses successfully and that
carries a Transfer-Encoding header is NOT rejected when its status code is
204 — the bodyless-status check runs before the framing check, so parsing
returns the response without error.  The claim's "regardless of the status
code" is therefore false. -/
theorem te_response_204_parses_cex :
    parse_response_from_bytes c2RespSrc 0 = .ok c2Resp
    ∧ (c2Resp.headersWithName (strBytes "Transfer-Encoding")).length = 1
    ∧ c2Resp.status.code.data = strBytes "204"
    ∧ c2Resp.body = none :=
  ⟨rfl, rfl, rfl, rfl⟩

/-- A request built around one Transfer-Encoding header, for instantiating
the framing theorem. -/
def teRequest : Request :=
  ⟨⟨[], []⟩, ⟨⟨[], []⟩, ⟨[], []⟩, ⟨[], []⟩⟩,
    [⟨⟨strBytes "Transfer-Encoding: chunked\r\n", rangeIdx 16 44⟩,
      ⟨⟨strBytes "Transfer-Encoding", rangeIdx 16 33⟩⟩,
      ⟨⟨strBytes "chunked", rangeIdx 35 42⟩⟩⟩], none⟩

/-- Source of a request carrying a Transfer-Encoding header. -/
def c2ReqSrc : List Nat := strBytes "GET / HTTP/1.1\r\nTransfer-Encoding: chunked\r\n\r\n"

/-- C2 amended: a request with any Transfer-Encoding header (in any letter
case) resolves its body length to the unsupported-framing error, and a
request parse never succeeds with such a header; a response resolves to the
same error ONLY when its status code is not 1xx, 204 or 304 — a successful
response parse implies either no Transfer-Encoding header or a bodyless
status code.  Concretely, a request head with a Transfer-Encoding header is
rejected with exactly the unsupported-framing message. -/
theorem transfer_encoding_unsupported :
    (∀ r : Request, r.headersWithName (strBytes "Transfer-Encoding") ≠ [] →
        request_body_len r = .error "Transfer-Encoding not supported yet")
    ∧ (∀ (r : Response) (c : Nat),
        parseUsizeBytes r.status.code.data = some c →
        ¬((100 ≤ c ∧ c ≤ 199) ∨ c = 204 ∨ c = 304) →
        r.headersWithName (strBytes "Transfer-Encoding") ≠ [] →
        response_body_len r = .error "Transfer-Encoding not supported yet")
    ∧ (∀ (src : List Nat) (offset : Nat) (req : Request),
        parse_request_from_bytes src offset = .ok req →
        req.headersWithName (strBytes "Transfer-Encoding") = [])
    ∧ (∀ (src : List Nat) (offset : Nat) (resp : Response),
        parse_response_from_bytes src offset = .ok resp →
        resp.headersWithName (strBytes "Transfer-Encoding") = []
          ∨ ∃ c, parseUsizeBytes resp.status.code.data = some c
              ∧ ((100 ≤ c ∧ c ≤ 199) ∨ c = 204 ∨ c = 304))
    ∧ parse_request_from_bytes c2ReqSrc 0 = .error "Transfer-Encoding not supported yet" := by
  refine ⟨?_, ?_, ?_, ?_, rfl⟩
  · intro r hne
    unfold request_body_len
    have he : (r.headersWithName (strBytes "Transfer-Encoding")).isEmpty = false := by
      rw [List.isEmpty_eq_false_iff_exists_mem]
      exact List.exists_mem_of_ne_nil _ hne
    rw [he]
    rfl
  · intro r c hc hb hne
    unfold response_body_len
    rw [hc]
    show (if (100 ≤ c ∧ c ≤ 199) ∨ c = 204 ∨ c = 304 then (Except.ok 0 : Except ParseError Nat)
        else if (!(r.headersWithName (strBytes "Transfer-Encoding")).isEmpty) = true then
          .error "Transfer-Encoding not supported yet"
        else
          match r.headersWithName (strBytes "Content-Length") with
          | hh :: _ =>
            match parseUsizeBytes hh.value.s.data with
            | some n => .ok n
            | none => .error "failed to parse Content-Length value"
          | [] =>
            .error "A response with a body must contain either a Content-Length or Transfer-Encoding header")
      = .error "Transfer-Encoding not supported yet"
    rw [if_neg hb]
    have he : (r.headersWithName (strBytes "Transfer-Encoding")).isEmpty = false := by
      rw [List.isEmpty_eq_false_iff_exists_mem]
      exact List.exists_mem_of_ne_nil _ hne
    rw [he]
    rfl
  · intro src offset req h
    simp only [parse_request_from_bytes] at h
    split at h
    · exact Except.noConfusion h
    · split at h
      · exact Except.noConfusion h
      · split at h
        · exact Except.noConfusion h
        · split at h
          · exact Except.noConfusion h
          · split at h
            · split at h
              · exact Except.noConfusion h
              · rename_i tok _ _ _ _ body_len hbl _ _
                cases h
                exact request_body_len_ok_no_te _ _ hbl
            · rename_i tok _ _ _ _ body_len hbl _
              cases h
              exact request_body_len_ok_no_te _ _ hbl
  · intro src offset resp h
    simp only [parse_response_from_bytes] at h
    split at h
    · exact Except.noConfusion h
    · split at h
      · exact Except.noConfusion h
      · split at h
        · exact Except.noConfusion h
        · split at h
          · exact Except.noConfusion h
          · split at h
            · split at h
              · exact Except.noConfusion h
              · rename_i tok _ _ _ _ body_len hbl _ _
                cases h
                exact response_body_len_ok_inv _ _ hbl
            · rename_i tok _ _ _ _ body_len hbl _
              cases h
              exact response_body_len_ok_inv _ _ hbl

/-- C2 witness: the framing theorem instantiated at a request holding one
Transfer-Encoding header. -/
theorem transfer_encoding_unsupported_witness :
    teRequest.headersWithName (strBytes "Transfer-Encoding") ≠ []
    ∧ request_body_len teRequest = .error "Transfer-Encoding not supported yet" :=
  ⟨by decide, transfer_encoding_unsupported.1 teRequest (by decide)⟩

/-! Claim C1: the top-level span covers exactly the consumed prefix. -/

/-- A prefix is no longer than the list. -/
theorem bytesStartWith_length : ∀ (l pat : List Nat),
    bytesStartWith l pat = true → pat.length ≤ l.length := by
  intro l
  induction l with
  | nil =>
    intro pat h
    cases pat with
    | nil => simp
    | cons b bs => simp [bytesStartWith] at h
  | cons a as ih =>
    intro pat h
    cases pat with
    | nil => simp
    | cons b bs =>
      simp only [bytesStartWith, Bool.and_eq_true] at h
      have := ih bs h.2
      simp only [List.length_cons]
      omega

/-- A found occurrence fits inside the searched list. -/
theorem findSubseq_bound : ∀ (l pat : List Nat) (i : Nat),
    findSubseq l pat = some i → i + pat.length ≤ l.length := by
  intro l
  induction l with
  | nil =>
    intro pat i h
    rw [findSubseq] at h
    by_cases hp : pat.isEmpty = true
    · rw [if_pos hp] at h
      cases h
      simp [List.isEmpty_iff.mp hp]
    · rw [if_neg hp] at h
      exact Option.noConfusion h
  | cons a as ih =>
    intro pat i h
    rw [findSubseq] at h
    by_cases hs : bytesStartWith (a :: as) pat = true
    · rw [if_pos hs] at h
      cases h
      simpa using bytesStartWith_length _ _ hs
    · rw [if_neg hs] at h
      cases hrec : findSubseq as pat with
      | none => rw [hrec] at h; exact Option.noConfusion h
      | some j =>
        rw [hrec] at h
        cases h
        have := ih pat j hrec
        simp only [List.length_cons]
        omega

/-- A tokenized request head ends inside the buffer. -/
theorem tokenizeRequest_headEnd_le (src : List Nat) (offset : Nat) (tok : ReqTok)
    (h : tokenizeRequest src offset = some tok) :
    offset + tok.headEnd ≤ src.length := by
  simp only [tokenizeRequest] at h
  repeat'
    first
      | exact Option.noConfusion h
      | split at h
  all_goals
    cases h
    have hb := findSubseq_bound (src.drop offset) [13, 10, 13, 10] _ (by assumption)
    have hd : (src.drop offset).length = src.length - offset := List.length_drop offset src
    simp only [List.length_cons, List.length_nil] at hb
    dsimp only
    omega

/-- A tokenized response head ends inside the buffer. -/
theorem tokenizeResponse_headEnd_le (src : List Nat) (offset : Nat) (tok : RespTok)
    (h : tokenizeResponse src offset = some tok) :
    offset + tok.headEnd ≤ src.length := by
  simp only [tokenizeResponse] at h
  repeat'
    first
      | exact Option.noConfusion h
      | split at h
  all_goals
    cases h
    have hb := findSubseq_bound (src.drop offset) [13, 10, 13, 10] _ (by assumption)
    have hd : (src.drop offset).length = src.length - offset := List.length_drop offset src
    simp only [List.length_cons, List.length_nil] at hb
    dsimp only
    omega

/-- C1: whenever parsing succeeds, the returned message's top-level span is
the contiguous index range from the offset through the consumed end — the
head end from the tokenizer when there is no body, the body end otherwise —
its data is exactly the slice of the source over that range, extracting the
source at the span's indices reproduces those bytes, and the body span (when
present) covers exactly the bytes from the head end through the consumed
end.  Stated for requests and for responses. -/
theorem parse_span_covers_consumed :
    (∀ (src : List Nat) (offset : Nat) (req : Request),
        parse_request_from_bytes src offset = .ok req →
        ∃ tok endIdx,
          tokenizeRequest src offset = some tok
          ∧ req.span.indices = rangeIdx offset endIdx
          ∧ req.span.data = listSlice src offset endIdx
          ∧ offset + tok.headEnd ≤ endIdx
          ∧ endIdx ≤ src.length
          ∧ extractIdx src req.span.indices = req.span.data
          ∧ ((req.body = none ∧ endIdx = offset + tok.headEnd)
             ∨ (∃ b, req.body = some b
                 ∧ b.span.indices = rangeIdx (offset + tok.headEnd) endIdx
                 ∧ b.span.data = listSlice src (offset + tok.headEnd) endIdx
                 ∧ extractIdx src b.span.indices = b.span.data)))
    ∧ (∀ (src : List Nat) (offset : Nat) (resp : Response),
        parse_response_from_bytes src offset = .ok resp →
        ∃ tok endIdx,
          tokenizeResponse src offset = some tok
          ∧ resp.span.indices = rangeIdx offset endIdx
          ∧ resp.span.data = listSlice src offset endIdx
          ∧ offset + tok.headEnd ≤ endIdx
          ∧ endIdx ≤ src.length
          ∧ extractIdx src resp.span.indices = resp.span.data
          ∧ ((resp.body = none ∧ endIdx = offset + tok.headEnd)
             ∨ (∃ b, resp.body = some b
                 ∧ b.span.indices = rangeIdx (offset + tok.headEnd) endIdx
                 ∧ b.span.data = listSlice src (offset + tok.headEnd) endIdx
                 ∧ extractIdx src b.span.indices = b.span.data))) := by
  constructor
  · intro src offset req h
    simp only [parse_request_from_bytes] at h
    repeat'
      first
        | exact Except.noConfusion h
        | split at h
    all_goals cases h
    all_goals
      first
        | (refine ⟨_, _, by assumption, rfl, rfl, by omega, ?_, ?_, Or.inl ⟨rfl, rfl⟩⟩
           · exact tokenizeRequest_headEnd_le src offset _ (by assumption)
           · exact extractIdx_mk_range src offset _
               (tokenizeRequest_headEnd_le src offset _ (by assumption)))
        | (refine ⟨_, _, by assumption, rfl, rfl, by omega, by omega, ?_,
              Or.inr ⟨_, rfl, rfl, rfl, ?_⟩⟩
           · exact extractIdx_mk_range src offset _ (by omega)
           · exact extractIdx_mk_range src _ _ (by omega))
  · intro src offset resp h
    simp only [parse_response_from_bytes] at h
    repeat'
      first
        | exact Except.noConfusion h
        | split at h
    all_goals cases h
    all_goals
      first
        | (refine ⟨_, _, by assumption, rfl, rfl, by omega, ?_, ?_, Or.inl ⟨rfl, rfl⟩⟩
           · exact tokenizeResponse_headEnd_le src offset _ (by assumption)
           · exact extractIdx_mk_range src offset _
               (tokenizeResponse_headEnd_le src offset _ (by assumption)))
        | (refine ⟨_, _, by assumption, rfl, rfl, by omega, by omega, ?_,
              Or.inr ⟨_, rfl, rfl, rfl, ?_⟩⟩
           · exact extractIdx_mk_range src offset _ (by omega)
           · exact extractIdx_mk_range src _ _ (by omega))

/-- Source of the C1 witness request (head of 38 bytes plus a 2-byte body). -/
def c1ReqSrc : List Nat := strBytes "POST / HTTP/1.1\r\nContent-Length: 2\r\n\r\nhi"

/-- The parsed C1 witness request. -/
def c1Req : Request :=
  match parse_request_from_bytes c1ReqSrc 0 with
  | .ok r => r
  | .error _ => dummyRequest

/-- C1 witness: the span-coverage theorem instantiated at a concrete
request with a body. -/
theorem parse_span_covers_consumed_witness :
    parse_request_from_bytes c1ReqSrc 0 = .ok c1Req
    ∧ ∃ tok endIdx,
        tokenizeRequest c1ReqSrc 0 = some tok
        ∧ c1Req.span.indices = rangeIdx 0 endIdx
        ∧ c1Req.span.data = listSlice c1ReqSrc 0 endIdx
        ∧ 0 + tok.headEnd ≤ endIdx
        ∧ endIdx ≤ c1ReqSrc.length
        ∧ extractIdx c1ReqSrc c1Req.span.indices = c1Req.span.data
        ∧ ((c1Req.body = none ∧ endIdx = 0 + tok.headEnd)
           ∨ (∃ b, c1Req.body = some b
               ∧ b.span.indices = rangeIdx (0 + tok.headEnd) endIdx
               ∧ b.span.data = listSlice c1ReqSrc (0 + tok.headEnd) endIdx
               ∧ extractIdx c1ReqSrc b.span.indices = b.span.data)) :=
  ⟨rfl, parse_span_covers_consumed.1 c1ReqSrc 0 c1Req rfl⟩
